import Mathlib

/-!
Shallow embedding of `checkout/webhook_handler.py` (class `StripeWH_Handler`,
method `handle_payment_intent_succeeded`) and of the data it touches.

Modelling conventions:
* Stripe metadata values are strings; an attribute that may be missing is an
  `Option`.  Python truthiness of such a value (`if not bag`) is `truthyS`.
* The database is an explicit `DB` record (orders, line items, product ids,
  user profiles); Django ORM calls become pure state-passing functions.
* `json.loads(bag)` is a fixed pure function of the bag text; its result is
  carried alongside the text in the event (`bagParsed`), `none` modelling a
  `JSONDecodeError`.  A cart value that is neither an int nor a dict with an
  int-valued `items_by_size` mapping is `BagEntry.malformed` and raises when
  processed (caught by the `except Exception` block of the handler).
* `time.sleep(1)` is counted: the poller returns the number of seconds slept.
* `send_mail` either succeeds (recording the recipient) or raises; the flag
  `Env.sendOk` selects which, and a raise lands in the outer `except` clause
  of the handler (status 500, no rollback).
* Money is exact rational arithmetic: `round(amount / 100, 2)` becomes
  `grandTotalOf`, rounding `amount / 100` to two decimal places over `ℚ`.
-/

namespace BoutiqueWH

/-- Shipping address carried by `intent.shipping.address`; every sub-field may
be null. -/
structure Address where
  country : Option String
  postal_code : Option String
  city : Option String
  line1 : Option String
  line2 : Option String
  state : Option String
deriving DecidableEq, Repr

/-- The `intent.shipping` object; `none` for `address` models a null or empty
address object. -/
structure ShippingDetails where
  name : Option String
  phone : Option String
  address : Option Address
deriving DecidableEq, Repr

/-- One element of `intent.charges.data`: the settled amount in minor units and
`billing_details.email`. -/
structure Charge where
  amount : ℤ
  billing_email : Option String
deriving DecidableEq, Repr

/-- One value of the parsed bag JSON: a plain integer quantity, a dict with an
`items_by_size` mapping, or anything else (which raises when processed). -/
inductive BagEntry where
  | qty (n : ℤ)
  | bySize (sizes : List (String × ℤ))
  | malformed
deriving DecidableEq, Repr

/-- The `intent.metadata` object.  `bag` is the raw serialized cart text;
`bagParsed` is the (deterministic) result of `json.loads` on that text. -/
structure Metadata where
  bag : Option String
  bagParsed : Option (List (String × BagEntry))
  save_info : Option String
  username : Option String
deriving DecidableEq, Repr

/-- The payment intent `event.data.object`; `metadata = none` models a missing
or empty metadata dict, `charges_data = []` missing or empty charge data. -/
structure Intent where
  id : String
  metadata : Option Metadata
  charges_data : List Charge
  shipping : Option ShippingDetails
deriving DecidableEq, Repr

/-- A persisted `Order` row.  `oid` is the primary key; `user_profile` holds
the username of the linked profile, if any. -/
structure OrderRec where
  oid : ℕ
  full_name : Option String
  user_profile : Option String
  email : Option String
  phone_number : Option String
  country : Option String
  postcode : Option String
  town_or_city : Option String
  street_address1 : Option String
  street_address2 : Option String
  county : Option String
  grand_total : ℚ
  original_bag : String
  stripe_pid : String
deriving DecidableEq, Repr

/-- A persisted `OrderLineItem` row. -/
structure LineItemRec where
  order_id : ℕ
  product_id : String
  quantity : ℤ
  product_size : Option String
deriving DecidableEq, Repr

/-- A persisted `UserProfile` row, keyed by username. -/
structure Profile where
  username : String
  default_phone_number : Option String
  default_country : Option String
  default_postcode : Option String
  default_town_or_city : Option String
  default_street_address1 : Option String
  default_street_address2 : Option String
  default_county : Option String
deriving DecidableEq, Repr

/-- The relational store: orders with their line items, the existing product
ids, the user profiles, and the next fresh order primary key. -/
structure DB where
  orders : List OrderRec
  line_items : List LineItemRec
  products : List String
  profiles : List Profile
  next_oid : ℕ
deriving DecidableEq, Repr

/-- The distinct response bodies the handler can produce (the part of the
`HttpResponse` content after the event type). -/
inductive WhMsg where
  | noMetadata
  | missingBag
  | noChargeData
  | noShippingDetails
  | noShippingAddress
  | invalidBagJson
  | productNotFound
  | verifiedExisting
  | createdOrder
  | unexpectedError
deriving DecidableEq, Repr

/-- Environment flag: whether `send_mail` succeeds or raises. -/
structure Env where
  sendOk : Bool
deriving DecidableEq, Repr

/-- The observable outcome of one handler call: HTTP status, response body
tag, the database afterwards, and the recipients of the emails actually
sent. -/
structure HResult where
  status : ℕ
  msg : WhMsg
  db : DB
  emails : List (Option String)
deriving DecidableEq, Repr

/-- Python truthiness of an optional string attribute: `None` and the empty
string are falsy. -/
def truthyS : Option String → Bool
  | none => false
  | some s => !(s == "")

/-- Normalization of one address sub-field (`if value == "":` set it to
`None`, lines 98 to 100 of the handler). -/
def normField : Option String → Option String
  | some "" => none
  | v => v

/-- Normalization of the whole shipping address. -/
def normalizeAddress (a : Address) : Address :=
  { country := normField a.country
    postal_code := normField a.postal_code
    city := normField a.city
    line1 := normField a.line1
    line2 := normField a.line2
    state := normField a.state }

/-- Rounding a rational to two decimal places, the model of Python
`round(x, 2)` on the exact value. -/
def roundTo2 (q : ℚ) : ℚ := ((round (q * 100) : ℤ) : ℚ) / 100

/-- Line 82 of the handler: `grand_total = round(intent.charges.data[0].amount
/ 100, 2)`. -/
def grandTotalOf (amount : ℤ) : ℚ := roundTo2 ((amount : ℚ) / 100)

/-- The validated view of an event that the rest of the handler consumes. -/
structure Ctx where
  pid : String
  bag : String
  bagParsed : Option (List (String × BagEntry))
  save_info : Option String
  username : String
  email : Option String
  name : Option String
  phone : Option String
  addr : Address
  grand_total : ℚ
deriving DecidableEq, Repr

/-- Lines 52 to 100 of the handler: the structural checks in program order
(metadata, bag, charge data, shipping details, shipping address), each
short-circuiting with its own 400 body, followed by address normalization and
extraction of the fields used later. -/
def validate (i : Intent) : Except WhMsg Ctx :=
  match i.metadata with
  | none => .error .noMetadata
  | some md =>
    match md.bag with
    | none => .error .missingBag
    | some bag =>
      if bag == "" then .error .missingBag
      else
        match i.charges_data with
        | [] => .error .noChargeData
        | charge :: _ =>
          match i.shipping with
          | none => .error .noShippingDetails
          | some sd =>
            match sd.address with
            | none => .error .noShippingAddress
            | some addr =>
              .ok { pid := i.id
                    bag := bag
                    bagParsed := md.bagParsed
                    save_info := md.save_info
                    username := md.username.getD "AnonymousUser"
                    email := charge.billing_email
                    name := sd.name
                    phone := sd.phone
                    addr := normalizeAddress addr
                    grand_total := grandTotalOf charge.amount }

/-- Lower-casing of a string, character by character (the model of
`str.lower`, used by case-insensitive comparison). -/
def lowerStr (s : String) : String := String.mk (s.data.map Char.toLower)

/-- Django `__iexact` comparison on a nullable text column: null matches null,
and two strings match ignoring case. -/
def iexact : Option String → Option String → Bool
  | none, none => true
  | some a, some b => lowerStr a == lowerStr b
  | _, _ => false

/-- The fingerprint the poller query matches on (lines 123 to 136). -/
structure Fingerprint where
  name : Option String
  email : Option String
  phone : Option String
  country : Option String
  postcode : Option String
  city : Option String
  line1 : Option String
  line2 : Option String
  state : Option String
  grand_total : ℚ
  bag : String
  pid : String
deriving DecidableEq, Repr

/-- Fingerprint of a validated event. -/
def fpOf (c : Ctx) : Fingerprint :=
  { name := c.name
    email := c.email
    phone := c.phone
    country := c.addr.country
    postcode := c.addr.postal_code
    city := c.addr.city
    line1 := c.addr.line1
    line2 := c.addr.line2
    state := c.addr.state
    grand_total := c.grand_total
    bag := c.bag
    pid := c.pid }

/-- The `Order.objects.get` filter of the poller: `__iexact` on the nine
textual fields, exact equality on `grand_total`, `original_bag` and
`stripe_pid`. -/
def matchesFp (o : OrderRec) (fp : Fingerprint) : Bool :=
  iexact o.full_name fp.name &&
  iexact o.email fp.email &&
  iexact o.phone_number fp.phone &&
  iexact o.country fp.country &&
  iexact o.postcode fp.postcode &&
  iexact o.town_or_city fp.city &&
  iexact o.street_address1 fp.line1 &&
  iexact o.street_address2 fp.line2 &&
  iexact o.county fp.state &&
  decide (o.grand_total = fp.grand_total) &&
  (o.original_bag == fp.bag) &&
  (o.stripe_pid == fp.pid)

/-- Result of the polling loop: the order found (with the attempt number that
found it), exhaustion, or a `MultipleObjectsReturned` raise (more than one row
matched `get`; only `DoesNotExist` is caught). -/
inductive PollResult where
  | found (o : OrderRec) (attempt : ℕ)
  | notFound
  | multi
deriving DecidableEq, Repr

/-- Lines 119 to 141: the retry loop.  `snap attempt` is the set of order rows
visible to the query at that attempt, `remaining` the attempts left, `sleeps`
the seconds slept so far (`time.sleep(1)` runs after every failed attempt,
including the last one). -/
def pollAux (snap : ℕ → List OrderRec) (fp : Fingerprint) :
    ℕ → ℕ → ℕ → PollResult × ℕ
  | _, 0, sleeps => (.notFound, sleeps)
  | attempt, r + 1, sleeps =>
    match (snap attempt).filter (fun o => matchesFp o fp) with
    | [] => pollAux snap fp (attempt + 1) r (sleeps + 1)
    | [o] => (.found o attempt, sleeps)
    | _ => (.multi, sleeps)

/-- The fields written into a profile by the save-info branch (lines 108 to
114), taken from the normalized shipping details. -/
def updatedProfile (p : Profile) (c : Ctx) : Profile :=
  { p with
    default_phone_number := c.phone
    default_country := c.addr.country
    default_postcode := c.addr.postal_code
    default_town_or_city := c.addr.city
    default_street_address1 := c.addr.line1
    default_street_address2 := c.addr.line2
    default_county := c.addr.state }

/-- Lines 102 to 117: profile lookup and optional update.  Returns the updated
database and the profile reference (`None` or the username) that the created
order will link to.  A missing profile is logged and ignored. -/
def profileStep (db : DB) (c : Ctx) : DB × Option String :=
  if c.username == "AnonymousUser" then (db, none)
  else
    match db.profiles.find? (fun p => p.username == c.username) with
    | none => (db, none)
    | some _ =>
      if truthyS c.save_info then
        ({ db with
            profiles := db.profiles.map
              (fun p => if p.username == c.username then updatedProfile p c else p) },
          some c.username)
      else (db, some c.username)

/-- The `Order.objects.create` call (lines 160 to 174), as the row it
inserts. -/
def newOrderOf (db : DB) (c : Ctx) (profile : Option String) : OrderRec :=
  { oid := db.next_oid
    full_name := c.name
    user_profile := profile
    email := c.email
    phone_number := c.phone
    country := c.addr.country
    postcode := c.addr.postal_code
    town_or_city := c.addr.city
    street_address1 := c.addr.line1
    street_address2 := c.addr.line2
    county := c.addr.state
    grand_total := c.grand_total
    original_bag := c.bag
    stripe_pid := c.pid }

/-- Insertion of the freshly created order row. -/
def afterOrderCreate (db : DB) (o : OrderRec) : DB :=
  { db with orders := db.orders ++ [o], next_oid := db.next_oid + 1 }

/-- Outcome of the line-item loop: finished, aborted on a missing product
(line 179), or raised on a malformed entry (caught at line 204).  The carried
database is the state at that moment, before any compensating deletion. -/
inductive MatOut where
  | ok (db : DB)
  | productMissing (db : DB)
  | failed (db : DB)
deriving DecidableEq, Repr

/-- Lines 176 to 202: the loop over the parsed bag.  Each entry first resolves
its product; a plain quantity inserts one sizeless line item, an
`items_by_size` dict inserts one line item per size, and a malformed entry
raises. -/
def addItems (oid : ℕ) : DB → List (String × BagEntry) → MatOut
  | db, [] => .ok db
  | db, (item_id, item_data) :: rest =>
    if db.products.contains item_id then
      match item_data with
      | .qty n =>
        addItems oid
          { db with line_items := db.line_items ++ [⟨oid, item_id, n, none⟩] } rest
      | .bySize sizes =>
        addItems oid
          { db with line_items :=
              db.line_items ++ sizes.map (fun sq => ⟨oid, item_id, sq.2, some sq.1⟩) } rest
      | .malformed => .failed db
    else .productMissing db

/-- The `order.delete()` compensation: removes the order row and, by cascade,
its line items. -/
def deleteOrder (db : DB) (oid : ℕ) : DB :=
  { db with
    orders := db.orders.filter (fun o => !(o.oid == oid))
    line_items := db.line_items.filter (fun li => !(li.order_id == oid)) }

/-- Everything the handler decides before any email is attempted. -/
inductive Outcome where
  | rejected (m : WhMsg) (db : DB)
  | multiMatch (db : DB)
  | matched (o : OrderRec) (db : DB)
  | invalidBag (db : DB)
  | created (o : OrderRec) (db : DB)
  | productNotFound (db : DB)
  | matFailed (db : DB)
deriving DecidableEq, Repr

/-- The database state carried by an outcome. -/
def Outcome.outDB : Outcome → DB
  | .rejected _ d => d
  | .multiMatch d => d
  | .matched _ d => d
  | .invalidBag d => d
  | .created _ d => d
  | .productNotFound d => d
  | .matFailed d => d

/-- The core of the handler after validation succeeded: profile update, the
five-attempt poll over the (sequentially constant) database, and on
exhaustion the materialization with compensating deletion on failure. -/
def runCoreV (db : DB) (c : Ctx) : Outcome :=
  match (pollAux (fun _ => (profileStep db c).1.orders) (fpOf c) 1 5 0).1 with
  | .multi => .multiMatch (profileStep db c).1
  | .found o _ => .matched o (profileStep db c).1
  | .notFound =>
    match c.bagParsed with
    | none => .invalidBag (profileStep db c).1
    | some entries =>
      match addItems (newOrderOf (profileStep db c).1 c (profileStep db c).2).oid
          (afterOrderCreate (profileStep db c).1
            (newOrderOf (profileStep db c).1 c (profileStep db c).2)) entries with
      | .ok db3 =>
        .created (newOrderOf (profileStep db c).1 c (profileStep db c).2) db3
      | .productMissing db3 =>
        .productNotFound
          (deleteOrder db3 (newOrderOf (profileStep db c).1 c (profileStep db c).2).oid)
      | .failed db3 =>
        .matFailed
          (deleteOrder db3 (newOrderOf (profileStep db c).1 c (profileStep db c).2).oid)

/-- The effectful core of `handle_payment_intent_succeeded`: validation, then
`runCoreV`. -/
def runCore (db : DB) (i : Intent) : Outcome :=
  match validate i with
  | .error m => .rejected m db
  | .ok c => runCoreV db c

/-- The response and email for each outcome.  On the two success paths the
confirmation email is sent before the 200 response; if `send_mail` raises the
outer `except` clause returns 500 without touching the database. -/
def respond (env : Env) : Outcome → HResult
  | .rejected m db => ⟨400, m, db, []⟩
  | .multiMatch db => ⟨500, .unexpectedError, db, []⟩
  | .matched o db =>
    if env.sendOk then ⟨200, .verifiedExisting, db, [o.email]⟩
    else ⟨500, .unexpectedError, db, []⟩
  | .invalidBag db => ⟨400, .invalidBagJson, db, []⟩
  | .created o db =>
    if env.sendOk then ⟨200, .createdOrder, db, [o.email]⟩
    else ⟨500, .unexpectedError, db, []⟩
  | .productNotFound db => ⟨400, .productNotFound, db, []⟩
  | .matFailed db => ⟨500, .unexpectedError, db, []⟩

/-- The whole of `handle_payment_intent_succeeded`. -/
def handlePI (env : Env) (db : DB) (i : Intent) : HResult :=
  respond env (runCore db i)

/-- Modelled from the spec: the Event Validator contract of section 4.1, a
fixed ordered list of structural checks, each paired with its rejection
reason. -/
def checkList (i : Intent) : List (Bool × WhMsg) :=
  [ (i.metadata.isNone, .noMetadata),
    (!truthyS (i.metadata.bind Metadata.bag), .missingBag),
    (i.charges_data.isEmpty, .noChargeData),
    (i.shipping.isNone, .noShippingDetails),
    ((i.shipping.bind ShippingDetails.address).isNone, .noShippingAddress) ]

/-- Modelled from the spec: short-circuit on the first failing check. -/
def firstFailure : List (Bool × WhMsg) → Option WhMsg
  | [] => none
  | (b, m) :: rest => if b then some m else firstFailure rest

/-- Modelled from the spec: the per-entry line-item expansion of section 4.4 —
one sizeless item for a plain quantity, one item per size for a per-size
mapping. -/
def expandEntry (oid : ℕ) (e : String × BagEntry) : List LineItemRec :=
  match e.2 with
  | .qty n => [⟨oid, e.1, n, none⟩]
  | .bySize sizes => sizes.map (fun sq => ⟨oid, e.1, sq.2, some sq.1⟩)
  | .malformed => []

/-- Freshness of the primary-key counter: no persisted row already uses it. -/
def FreshOid (db : DB) : Prop :=
  (∀ o ∈ db.orders, o.oid ≠ db.next_oid) ∧
  (∀ li ∈ db.line_items, li.order_id ≠ db.next_oid)

/-- An address field selector, for stating field-generic facts. -/
inductive AddrField where
  | country | postal_code | city | line1 | line2 | state
deriving DecidableEq, Repr

/-- Overwrite one address sub-field. -/
def setAddrField (a : Address) : AddrField → Option String → Address
  | .country, v => { a with country := v }
  | .postal_code, v => { a with postal_code := v }
  | .city, v => { a with city := v }
  | .line1, v => { a with line1 := v }
  | .line2, v => { a with line2 := v }
  | .state, v => { a with state := v }

/-- Overwrite the shipping address of an event. -/
def setShippingAddr (i : Intent) (sd : ShippingDetails) (a : Address) : Intent :=
  { i with shipping := some { sd with address := some a } }

/-- The database state carried by a materialization outcome. -/
def MatOut.outDB : MatOut → DB
  | .ok d => d
  | .productMissing d => d
  | .failed d => d

/-- Modelled from the spec: line items for a whole cart, entry by entry. -/
def expandAll (oid : ℕ) : List (String × BagEntry) → List LineItemRec
  | [] => []
  | e :: rest => expandEntry oid e ++ expandAll oid rest

/-!  Concrete inputs used by instance parts of claims and by witnesses. -/

/-- A stored order whose city is spelled `London`. -/
def exOrderLondon : OrderRec :=
  { oid := 7
    full_name := some "Jane Doe"
    user_profile := none
    email := some "jane@example.com"
    phone_number := some "123"
    country := some "GB"
    postcode := some "AB1"
    town_or_city := some "London"
    street_address1 := some "1 High St"
    street_address2 := none
    county := none
    grand_total := grandTotalOf 4999
    original_bag := "bagA"
    stripe_pid := "pi_1" }

/-- The same fingerprint with the city spelled `LONDON`. -/
def exFpLondon : Fingerprint :=
  { name := some "Jane Doe"
    email := some "jane@example.com"
    phone := some "123"
    country := some "GB"
    postcode := some "AB1"
    city := some "LONDON"
    line1 := some "1 High St"
    line2 := none
    state := none
    grand_total := grandTotalOf 4999
    bag := "bagA"
    pid := "pi_1" }

/-- A concrete shipping address. -/
def wAddr : Address :=
  { country := some "GB"
    postal_code := some "AB1"
    city := some "London"
    line1 := some "1 High St"
    line2 := none
    state := none }

/-- Concrete shipping details. -/
def wShip : ShippingDetails :=
  { name := some "Jane Doe", phone := some "123", address := some wAddr }

/-- A concrete charge of 4999 minor units. -/
def wCharge : Charge := { amount := 4999, billing_email := some "jane@example.com" }

/-- Scenario A event: anonymous user, plain-quantity cart for product 12. -/
def wIntentA : Intent :=
  { id := "pi_1"
    metadata := some
      { bag := some "bagA"
        bagParsed := some [("12", .qty 3)]
        save_info := none
        username := none }
    charges_data := [wCharge]
    shipping := some wShip }

/-- An empty store that knows product 12. -/
def wDB0 : DB :=
  { orders := [], line_items := [], products := ["12"], profiles := [], next_oid := 0 }

/-- The database after a first successful delivery of `wIntentA`. -/
def wDB1 : DB := (handlePI ⟨true⟩ wDB0 wIntentA).db

/-- The validated view of `wIntentA`. -/
def wCtxA : Ctx :=
  { pid := "pi_1"
    bag := "bagA"
    bagParsed := some [("12", .qty 3)]
    save_info := none
    username := "AnonymousUser"
    email := some "jane@example.com"
    name := some "Jane Doe"
    phone := some "123"
    addr := normalizeAddress wAddr
    grand_total := grandTotalOf 4999 }

/-- Scenario E event: cart references the unknown product 999. -/
def wIntentE : Intent :=
  { id := "pi_2"
    metadata := some
      { bag := some "bagE"
        bagParsed := some [("999", .qty 1)]
        save_info := none
        username := none }
    charges_data := [wCharge]
    shipping := some wShip }

/-- The validated view of `wIntentE`. -/
def wCtxE : Ctx :=
  { pid := "pi_2"
    bag := "bagE"
    bagParsed := some [("999", .qty 1)]
    save_info := none
    username := "AnonymousUser"
    email := some "jane@example.com"
    name := some "Jane Doe"
    phone := some "123"
    addr := normalizeAddress wAddr
    grand_total := grandTotalOf 4999 }

/-- A stored profile for user kirby. -/
def wProfile : Profile :=
  { username := "kirby"
    default_phone_number := none
    default_country := none
    default_postcode := none
    default_town_or_city := none
    default_street_address1 := none
    default_street_address2 := none
    default_county := none }

/-- A store holding kirby's profile. -/
def wDBP : DB :=
  { orders := [], line_items := [], products := ["12"], profiles := [wProfile], next_oid := 0 }

/-- An event from user kirby with the save-info flag set. -/
def wIntentP : Intent :=
  { id := "pi_3"
    metadata := some
      { bag := some "bagA"
        bagParsed := some [("12", .qty 3)]
        save_info := some "true"
        username := some "kirby" }
    charges_data := [wCharge]
    shipping := some wShip }

/-- The validated view of `wIntentP`. -/
def wCtxP : Ctx :=
  { pid := "pi_3"
    bag := "bagA"
    bagParsed := some [("12", .qty 3)]
    save_info := some "true"
    username := "kirby"
    email := some "jane@example.com"
    name := some "Jane Doe"
    phone := some "123"
    addr := normalizeAddress wAddr
    grand_total := grandTotalOf 4999 }

/-!  Helper lemmas. -/

theorem iexact_self (x : Option String) : iexact x x = true := by
  cases x <;> simp [iexact]

theorem iexact_eq_true_iff (a b : Option String) :
    iexact a b = true ↔ a.map lowerStr = b.map lowerStr := by
  cases a <;> cases b <;> simp [iexact]

theorem matchesFp_newOrder (db : DB) (c : Ctx) (profile : Option String) :
    matchesFp (newOrderOf db c profile) (fpOf c) = true := by
  simp [matchesFp, newOrderOf, fpOf, iexact_self]

theorem grandTotalOf_eq (a : ℤ) : grandTotalOf a = (a : ℚ) / 100 := by
  unfold grandTotalOf roundTo2
  have h : ((a : ℚ) / 100) * 100 = (a : ℚ) := by field_simp
  rw [h, round_intCast]

theorem profileStep_orders (db : DB) (c : Ctx) :
    (profileStep db c).1.orders = db.orders := by
  unfold profileStep
  split
  · rfl
  · split
    · rfl
    · split <;> rfl

theorem profileStep_line_items (db : DB) (c : Ctx) :
    (profileStep db c).1.line_items = db.line_items := by
  unfold profileStep
  split
  · rfl
  · split
    · rfl
    · split <;> rfl

theorem profileStep_products (db : DB) (c : Ctx) :
    (profileStep db c).1.products = db.products := by
  unfold profileStep
  split
  · rfl
  · split
    · rfl
    · split <;> rfl

theorem profileStep_next_oid (db : DB) (c : Ctx) :
    (profileStep db c).1.next_oid = db.next_oid := by
  unfold profileStep
  split
  · rfl
  · split
    · rfl
    · split <;> rfl

theorem addItems_frame (oid : ℕ) :
    ∀ (l : List (String × BagEntry)) (db : DB),
    (addItems oid db l).outDB.orders = db.orders ∧
    (addItems oid db l).outDB.products = db.products ∧
    (addItems oid db l).outDB.profiles = db.profiles ∧
    (addItems oid db l).outDB.next_oid = db.next_oid ∧
    ∃ extra, (addItems oid db l).outDB.line_items = db.line_items ++ extra ∧
      ∀ li ∈ extra, li.order_id = oid := by
  intro l
  induction l with
  | nil =>
    intro db
    exact ⟨rfl, rfl, rfl, rfl, [], by simp [addItems, MatOut.outDB], by simp⟩
  | cons e rest ih =>
    intro db
    obtain ⟨item_id, item_data⟩ := e
    by_cases hc : db.products.contains item_id
    · cases item_data with
      | qty n =>
        simp only [addItems, hc, if_true]
        obtain ⟨h1, h2, h3, h4, extra, h5, h6⟩ :=
          ih { db with line_items := db.line_items ++ [⟨oid, item_id, n, none⟩] }
        refine ⟨h1, h2, h3, h4, ⟨oid, item_id, n, none⟩ :: extra, ?_, ?_⟩
        · rw [h5]; simp
        · intro li hli
          rcases List.mem_cons.mp hli with h | h
          · rw [h]
          · exact h6 li h
      | bySize sizes =>
        simp only [addItems, hc, if_true]
        obtain ⟨h1, h2, h3, h4, extra, h5, h6⟩ :=
          ih { db with line_items :=
                db.line_items ++ sizes.map (fun sq => ⟨oid, item_id, sq.2, some sq.1⟩) }
        refine ⟨h1, h2, h3, h4,
          sizes.map (fun sq => ⟨oid, item_id, sq.2, some sq.1⟩) ++ extra, ?_, ?_⟩
        · rw [h5]; simp
        · intro li hli
          rcases List.mem_append.mp hli with h | h
          · obtain ⟨sq, _, hsq⟩ := List.mem_map.mp h
            rw [← hsq]
          · exact h6 li h
      | malformed =>
        simp only [addItems, hc, if_true]
        exact ⟨rfl, rfl, rfl, rfl, [], by simp [MatOut.outDB], by simp⟩
    · simp only [addItems, hc, if_false]
      exact ⟨rfl, rfl, rfl, rfl, [], by simp [MatOut.outDB], by simp⟩

theorem addItems_ok_eq (oid : ℕ) :
    ∀ (l : List (String × BagEntry)) (db : DB),
    (∀ e ∈ l, db.products.contains e.1 = true ∧ e.2 ≠ BagEntry.malformed) →
    addItems oid db l = .ok { db with line_items := db.line_items ++ expandAll oid l } := by
  intro l
  induction l with
  | nil => intro db _; simp [addItems, expandAll]
  | cons e rest ih =>
    intro db h
    obtain ⟨item_id, item_data⟩ := e
    obtain ⟨hc, hm⟩ := h _ (List.mem_cons_self _ _)
    cases item_data with
    | qty n =>
      simp only [addItems, hc, if_true]
      rw [ih { db with line_items := db.line_items ++ [⟨oid, item_id, n, none⟩] }
        (fun x hx => h x (List.mem_cons_of_mem _ hx))]
      simp [expandAll, expandEntry]
    | bySize sizes =>
      simp only [addItems, hc, if_true]
      rw [ih { db with line_items :=
            db.line_items ++ sizes.map (fun sq => ⟨oid, item_id, sq.2, some sq.1⟩) }
        (fun x hx => h x (List.mem_cons_of_mem _ hx))]
      simp [expandAll, expandEntry]
    | malformed => exact absurd rfl hm

theorem addItems_missing (oid : ℕ) :
    ∀ (l : List (String × BagEntry)) (db : DB),
    (∀ e ∈ l, e.2 ≠ BagEntry.malformed) →
    (∃ e ∈ l, db.products.contains e.1 = false) →
    ∃ dbx, addItems oid db l = .productMissing dbx := by
  intro l
  induction l with
  | nil => intro db _ hex; obtain ⟨e, he, _⟩ := hex; exact absurd he (List.not_mem_nil e)
  | cons e rest ih =>
    intro db hwf hex
    obtain ⟨item_id, item_data⟩ := e
    by_cases hc : db.products.contains item_id
    · have hrest : ∃ x ∈ rest, db.products.contains x.1 = false := by
        obtain ⟨x, hx, hxc⟩ := hex
        rcases List.mem_cons.mp hx with h | h
        · rw [h] at hxc; simp only at hxc; rw [hc] at hxc; exact absurd hxc (by simp)
        · exact ⟨x, h, hxc⟩
      have hm := hwf _ (List.mem_cons_self _ _)
      cases item_data with
      | qty n =>
        simp only [addItems, hc, if_true]
        exact ih _ (fun x hx => hwf x (List.mem_cons_of_mem _ hx)) hrest
      | bySize sizes =>
        simp only [addItems, hc, if_true]
        exact ih _ (fun x hx => hwf x (List.mem_cons_of_mem _ hx)) hrest
      | malformed => exact absurd rfl hm
    · refine ⟨db, ?_⟩
      simp only [addItems]
      rw [if_neg hc]

theorem profileStep_fresh (db : DB) (c : Ctx) (h : FreshOid db) :
    FreshOid (profileStep db c).1 := by
  constructor
  · rw [profileStep_orders, profileStep_next_oid]; exact h.1
  · rw [profileStep_line_items, profileStep_next_oid]; exact h.2

theorem pollAux_const_nomatch (L : List OrderRec) (fp : Fingerprint)
    (h : L.filter (fun o => matchesFp o fp) = []) :
    ∀ (r a s : ℕ), pollAux (fun _ => L) fp a r s = (.notFound, s + r) := by
  intro r
  induction r with
  | zero => intro a s; simp [pollAux]
  | succ n ih =>
    intro a s
    have : pollAux (fun _ => L) fp a (n + 1) s = pollAux (fun _ => L) fp (a + 1) n (s + 1) := by
      simp only [pollAux, h]
    rw [this, ih]
    have : s + 1 + n = s + (n + 1) := by omega
    rw [this]

theorem pollAux_const_found (L : List OrderRec) (fp : Fingerprint) (o : OrderRec)
    (h : L.filter (fun x => matchesFp x fp) = [o]) (a r s : ℕ) :
    pollAux (fun _ => L) fp a (r + 1) s = (.found o a, s) := by
  simp only [pollAux, h]

theorem pollAux_const_notFound_filter (L : List OrderRec) (fp : Fingerprint)
    (a r s : ℕ) (h : (pollAux (fun _ => L) fp a (r + 1) s).1 = .notFound) :
    L.filter (fun x => matchesFp x fp) = [] := by
  rcases hf : L.filter (fun x => matchesFp x fp) with _ | ⟨x, _ | ⟨y, rest⟩⟩
  · rfl
  · rw [pollAux_const_found L fp x hf a r s] at h
    exact absurd h (by simp)
  · simp only [pollAux, hf] at h
    exact absurd h (by simp)

theorem pollAux_spec (snap : ℕ → List OrderRec) (fp : Fingerprint) :
    ∀ (r a s : ℕ),
      ((pollAux snap fp a r s).1 = .notFound → (pollAux snap fp a r s).2 = s + r) ∧
      (∀ o k, (pollAux snap fp a r s).1 = .found o k →
        a ≤ k ∧ k < a + r ∧ (pollAux snap fp a r s).2 = s + (k - a) ∧
        matchesFp o fp = true ∧ o ∈ snap k) ∧
      (pollAux snap fp a r s).2 ≤ s + r := by
  intro r
  induction r with
  | zero =>
    intro a s
    refine ⟨fun _ => by simp [pollAux], fun o k hk => ?_, by simp [pollAux]⟩
    simp [pollAux] at hk
  | succ n ih =>
    intro a s
    rcases hf : (snap a).filter (fun o => matchesFp o fp) with _ | ⟨x, _ | ⟨y, rest⟩⟩
    · have hstep : pollAux snap fp a (n + 1) s = pollAux snap fp (a + 1) n (s + 1) := by
        simp only [pollAux, hf]
      obtain ⟨h1, h2, h3⟩ := ih (a + 1) (s + 1)
      rw [hstep]
      refine ⟨fun hn => by rw [h1 hn]; omega, fun o k hk => ?_, by omega⟩
      obtain ⟨g1, g2, g3, g4, g5⟩ := h2 o k hk
      exact ⟨by omega, by omega, by rw [g3]; omega, g4, g5⟩
    · have hstep : pollAux snap fp a (n + 1) s = (.found x a, s) := by
        simp only [pollAux, hf]
      rw [hstep]
      refine ⟨fun hn => by simp at hn, fun o k hk => ?_, by omega⟩
      simp only [PollResult.found.injEq] at hk
      have hx : x ∈ (snap a).filter (fun o => matchesFp o fp) := by rw [hf]; simp
      rw [List.mem_filter] at hx
      refine ⟨by omega, by omega, by omega, ?_, ?_⟩
      · rw [← hk.1]; exact hx.2
      · rw [← hk.1, ← hk.2]; exact hx.1
    · have hstep : pollAux snap fp a (n + 1) s = (.multi, s) := by
        simp only [pollAux, hf]
      rw [hstep]
      exact ⟨fun hn => by simp at hn, fun o k hk => by simp at hk, by omega⟩

theorem handlePI_def (env : Env) (db : DB) (i : Intent) :
    handlePI env db i = respond env (runCore db i) := rfl

theorem runCore_error (db : DB) (i : Intent) (m : WhMsg) (h : validate i = .error m) :
    runCore db i = .rejected m db := by
  simp [runCore, h]

theorem runCore_ok (db : DB) (i : Intent) (c : Ctx) (h : validate i = .ok c) :
    runCore db i = runCoreV db c := by
  simp [runCore, h]

theorem respond_db (env : Env) (out : Outcome) : (respond env out).db = out.outDB := by
  cases out <;> cases henv : env.sendOk <;> simp [respond, Outcome.outDB, henv]

theorem runCoreV_found (db : DB) (c : Ctx) (o : OrderRec)
    (hone : (profileStep db c).1.orders.filter (fun x => matchesFp x (fpOf c)) = [o]) :
    runCoreV db c = .matched o (profileStep db c).1 := by
  unfold runCoreV
  rw [pollAux_const_found _ _ o hone 1 4 0]

theorem runCoreV_materialize (db : DB) (c : Ctx) (entries : List (String × BagEntry))
    (hnf : (profileStep db c).1.orders.filter (fun x => matchesFp x (fpOf c)) = [])
    (hbp : c.bagParsed = some entries) :
    runCoreV db c =
      match addItems (newOrderOf (profileStep db c).1 c (profileStep db c).2).oid
          (afterOrderCreate (profileStep db c).1
            (newOrderOf (profileStep db c).1 c (profileStep db c).2)) entries with
      | .ok db3 =>
        .created (newOrderOf (profileStep db c).1 c (profileStep db c).2) db3
      | .productMissing db3 =>
        .productNotFound
          (deleteOrder db3 (newOrderOf (profileStep db c).1 c (profileStep db c).2).oid)
      | .failed db3 =>
        .matFailed
          (deleteOrder db3 (newOrderOf (profileStep db c).1 c (profileStep db c).2).oid) := by
  unfold runCoreV
  rw [pollAux_const_nomatch _ _ hnf 5 1 0, hbp]

theorem runCoreV_created_inv (db : DB) (c : Ctx) (o : OrderRec) (db3 : DB)
    (h : runCoreV db c = .created o db3) :
    ∃ entries,
      (profileStep db c).1.orders.filter (fun x => matchesFp x (fpOf c)) = [] ∧
      c.bagParsed = some entries ∧
      o = newOrderOf (profileStep db c).1 c (profileStep db c).2 ∧
      addItems o.oid (afterOrderCreate (profileStep db c).1 o) entries = .ok db3 := by
  unfold runCoreV at h
  rcases hp : (pollAux (fun _ => (profileStep db c).1.orders) (fpOf c) 1 5 0).1
    with ⟨o2, k⟩ | _ | _ <;> rw [hp] at h <;> simp only at h
  · simp at h
  case notFound =>
    have hnf : (profileStep db c).1.orders.filter (fun x => matchesFp x (fpOf c)) = [] :=
      pollAux_const_notFound_filter _ _ 1 4 0 hp
    rcases hbp : c.bagParsed with _ | entries <;> rw [hbp] at h <;> simp only at h
    · simp at h
    · rcases ha : addItems (newOrderOf (profileStep db c).1 c (profileStep db c).2).oid
          (afterOrderCreate (profileStep db c).1
            (newOrderOf (profileStep db c).1 c (profileStep db c).2)) entries
        with db4 | db4 | db4 <;> rw [ha] at h <;> simp at h
      obtain ⟨ho, hdb⟩ := h
      refine ⟨entries, hnf, rfl, ho.symm, ?_⟩
      rw [ho, hdb] at ha
      exact ha
  · simp at h

theorem runCoreV_matched_inv (db : DB) (c : Ctx) (o : OrderRec) (db1 : DB)
    (h : runCoreV db c = .matched o db1) :
    db1 = (profileStep db c).1 ∧ o ∈ (profileStep db c).1.orders ∧
      matchesFp o (fpOf c) = true := by
  unfold runCoreV at h
  rcases hp : (pollAux (fun _ => (profileStep db c).1.orders) (fpOf c) 1 5 0).1
    with ⟨o2, k⟩ | _ | _ <;> rw [hp] at h <;> simp only at h
  · simp at h
    obtain ⟨g1, g2, g3, g4, g5⟩ :=
      (pollAux_spec (fun _ => (profileStep db c).1.orders) (fpOf c) 5 1 0).2.1 o2 k hp
    obtain ⟨ho, hdb⟩ := h
    rw [← ho]
    exact ⟨hdb.symm, g5, g4⟩
  case notFound =>
    rcases hbp : c.bagParsed with _ | entries <;> rw [hbp] at h <;> simp only at h
    · simp at h
    · rcases ha : addItems (newOrderOf (profileStep db c).1 c (profileStep db c).2).oid
          (afterOrderCreate (profileStep db c).1
            (newOrderOf (profileStep db c).1 c (profileStep db c).2)) entries
        with db4 | db4 | db4 <;> rw [ha] at h <;> simp at h
  · simp at h

theorem deleteOrder_restore (base : DB) (n : ℕ) (dbx : DB) (o : OrderRec)
    (extra : List LineItemRec)
    (ho : dbx.orders = base.orders ++ [o]) (hon : o.oid = n)
    (hl : dbx.line_items = base.line_items ++ extra)
    (hex : ∀ li ∈ extra, li.order_id = n)
    (h1 : ∀ x ∈ base.orders, x.oid ≠ n)
    (h2 : ∀ li ∈ base.line_items, li.order_id ≠ n) :
    (deleteOrder dbx n).orders = base.orders ∧
    (deleteOrder dbx n).line_items = base.line_items := by
  unfold deleteOrder
  constructor
  · show dbx.orders.filter (fun x => !(x.oid == n)) = base.orders
    rw [ho, List.filter_append]
    have hbase : base.orders.filter (fun x => !(x.oid == n)) = base.orders :=
      List.filter_eq_self.mpr (fun a ha => by simp [h1 a ha])
    have hone : [o].filter (fun x => !(x.oid == n)) = [] := by simp [hon]
    rw [hbase, hone, List.append_nil]
  · show dbx.line_items.filter (fun li => !(li.order_id == n)) = base.line_items
    rw [hl, List.filter_append]
    have hbase : base.line_items.filter (fun li => !(li.order_id == n)) = base.line_items :=
      List.filter_eq_self.mpr (fun a ha => by simp [h2 a ha])
    have hext : extra.filter (fun li => !(li.order_id == n)) = [] := by
      rw [List.filter_eq_nil_iff]
      intro a ha
      simp [hex a ha]
    rw [hbase, hext, List.append_nil]

/-!  Claim theorems. -/

/-- C3: the reconciliation poller performs up to 5 attempts, sleeps 1 second
after each failed attempt (so between consecutive attempts), returns found
with a matching order or not-found after exhausting all 5 attempts, and on
the not-found path blocks for 5 seconds in total (approximately 5 seconds). -/
theorem poller_attempts_and_backoff (snap : ℕ → List OrderRec) (fp : Fingerprint) :
    ((pollAux snap fp 1 5 0).1 = .notFound → (pollAux snap fp 1 5 0).2 = 5) ∧
    (∀ o k, (pollAux snap fp 1 5 0).1 = .found o k →
      1 ≤ k ∧ k ≤ 5 ∧ (pollAux snap fp 1 5 0).2 = k - 1 ∧
      matchesFp o fp = true ∧ o ∈ snap k) ∧
    (pollAux snap fp 1 5 0).2 ≤ 5 := by
  obtain ⟨h1, h2, h3⟩ := pollAux_spec snap fp 5 1 0
  refine ⟨fun h => by rw [h1 h], fun o k hk => ?_, by simpa using h3⟩
  obtain ⟨g1, g2, g3, g4, g5⟩ := h2 o k hk
  exact ⟨g1, by omega, by omega, g4, g5⟩

/-- C4: the validator checks metadata, cart snapshot, charge data, shipping
details and shipping address in that fixed order, short-circuiting on the
first failure with a distinct reason and status 400, and a failing event
leaves the database untouched and sends no confirmation. -/
theorem validator_fixed_order (i : Intent) (env : Env) (db : DB) (m : WhMsg) :
    (validate i = .error m ↔ firstFailure (checkList i) = some m) ∧
    (validate i = .error m → handlePI env db i = ⟨400, m, db, []⟩) ∧
    [WhMsg.noMetadata, WhMsg.missingBag, WhMsg.noChargeData,
      WhMsg.noShippingDetails, WhMsg.noShippingAddress].Nodup := by
  refine ⟨?_, ?_, by decide⟩
  · rcases hmd : i.metadata with _ | md
    · simp [validate, checkList, firstFailure, hmd]
    · rcases hb : md.bag with _ | bag
      · simp [validate, checkList, firstFailure, hmd, hb, truthyS]
      · by_cases hbe : bag = ""
        · subst hbe
          simp [validate, checkList, firstFailure, hmd, hb, truthyS]
        · rcases hc : i.charges_data with _ | ⟨ch, chs⟩
          · simp [validate, checkList, firstFailure, hmd, hb, hbe, truthyS, hc]
          · rcases hs : i.shipping with _ | sd
            · simp [validate, checkList, firstFailure, hmd, hb, hbe, truthyS, hc, hs]
            · rcases ha : sd.address with _ | addr
              · simp [validate, checkList, firstFailure, hmd, hb, hbe, truthyS, hc,
                  hs, ha]
              · simp [validate, checkList, firstFailure, hmd, hb, hbe, truthyS, hc,
                  hs, ha]
  · intro hv
    rw [handlePI_def, runCore_error db i m hv]
    rfl

/-- C5: the fingerprint grand total is the settled minor-unit amount divided
by 100 rounded to two decimal places, which is exact; in particular amount
4999 gives exactly 49.99. -/
theorem fingerprint_rounding_exact :
    grandTotalOf 4999 = 49.99 ∧ ∀ a : ℤ, grandTotalOf a = (a : ℚ) / 100 := by
  refine ⟨?_, grandTotalOf_eq⟩
  rw [grandTotalOf_eq]
  norm_num

/-- C6: order matching compares the nine textual fingerprint fields
case-insensitively and the grand total, original bag text and payment
reference exactly; in particular a stored order with city London matches a
fingerprint with city LONDON. -/
theorem matching_case_insensitive :
    (∀ (o : OrderRec) (fp : Fingerprint),
      matchesFp o fp = true ↔
        (o.full_name.map lowerStr = fp.name.map lowerStr ∧
         o.email.map lowerStr = fp.email.map lowerStr ∧
         o.phone_number.map lowerStr = fp.phone.map lowerStr ∧
         o.country.map lowerStr = fp.country.map lowerStr ∧
         o.postcode.map lowerStr = fp.postcode.map lowerStr ∧
         o.town_or_city.map lowerStr = fp.city.map lowerStr ∧
         o.street_address1.map lowerStr = fp.line1.map lowerStr ∧
         o.street_address2.map lowerStr = fp.line2.map lowerStr ∧
         o.county.map lowerStr = fp.state.map lowerStr ∧
         o.grand_total = fp.grand_total ∧
         o.original_bag = fp.bag ∧
         o.stripe_pid = fp.pid)) ∧
    matchesFp exOrderLondon exFpLondon = true ∧
    exOrderLondon.town_or_city = some "London" ∧
    exFpLondon.city = some "LONDON" := by
  have hch : ∀ (o : OrderRec) (fp : Fingerprint),
      matchesFp o fp = true ↔
        (o.full_name.map lowerStr = fp.name.map lowerStr ∧
         o.email.map lowerStr = fp.email.map lowerStr ∧
         o.phone_number.map lowerStr = fp.phone.map lowerStr ∧
         o.country.map lowerStr = fp.country.map lowerStr ∧
         o.postcode.map lowerStr = fp.postcode.map lowerStr ∧
         o.town_or_city.map lowerStr = fp.city.map lowerStr ∧
         o.street_address1.map lowerStr = fp.line1.map lowerStr ∧
         o.street_address2.map lowerStr = fp.line2.map lowerStr ∧
         o.county.map lowerStr = fp.state.map lowerStr ∧
         o.grand_total = fp.grand_total ∧
         o.original_bag = fp.bag ∧
         o.stripe_pid = fp.pid) := by
    intro o fp
    simp [matchesFp, Bool.and_eq_true, iexact_eq_true_iff, decide_eq_true_eq,
      beq_iff_eq, and_assoc]
  refine ⟨hch, (hch exOrderLondon exFpLondon).mpr ?_, rfl, rfl⟩
  exact ⟨by decide, by decide, by decide, by decide, by decide, by decide,
    by decide, by decide, by decide, rfl, rfl, rfl⟩

/-- C7: an empty-string shipping-address sub-field is normalized to null, so
for every event the handler behaves identically (same response, same stored
rows, same emails) whether any one address sub-field is the empty string or
absent. -/
theorem empty_string_addr_field_absent (env : Env) (db : DB) (i : Intent)
    (sd : ShippingDetails) (a : Address) (f : AddrField) :
    handlePI env db (setShippingAddr i sd (setAddrField a f (some ""))) =
    handlePI env db (setShippingAddr i sd (setAddrField a f none)) := by
  have hn : normalizeAddress (setAddrField a f (some "")) =
      normalizeAddress (setAddrField a f none) := by
    cases f <;> rfl
  have hv : validate (setShippingAddr i sd (setAddrField a f (some ""))) =
      validate (setShippingAddr i sd (setAddrField a f none)) := by
    simp only [validate, setShippingAddr]
    rw [hn]
  simp only [handlePI, runCore]
  rw [hv]

/-- C2: when a validated event finds no matching order and its parsed cart
contains a product id that does not resolve, the handler deletes the order it
created together with any already-attached line items, answers 400 with the
product-not-found body and sends no confirmation; afterwards the order rows
and line-item rows are exactly what they were before the call. -/
theorem rollback_on_missing_product (env : Env) (db : DB) (i : Intent) (c : Ctx)
    (entries : List (String × BagEntry))
    (hv : validate i = .ok c)
    (hnf : db.orders.filter (fun x => matchesFp x (fpOf c)) = [])
    (hbp : c.bagParsed = some entries)
    (hwf : ∀ e ∈ entries, e.2 ≠ BagEntry.malformed)
    (hmiss : ∃ e ∈ entries, db.products.contains e.1 = false)
    (hfresh : FreshOid db) :
    ∃ db2, handlePI env db i = ⟨400, .productNotFound, db2, []⟩ ∧
      db2.orders = db.orders ∧ db2.line_items = db.line_items := by
  have hdb1o := profileStep_orders db c
  have hdb1p := profileStep_products db c
  have hdb1l := profileStep_line_items db c
  have hdb1n := profileStep_next_oid db c
  have hnf1 : (profileStep db c).1.orders.filter (fun x => matchesFp x (fpOf c)) = [] := by
    rw [hdb1o]; exact hnf
  have hmiss2 : ∃ e ∈ entries,
      (afterOrderCreate (profileStep db c).1
        (newOrderOf (profileStep db c).1 c (profileStep db c).2)).products.contains e.1
        = false := by
    have hp2 : (afterOrderCreate (profileStep db c).1
        (newOrderOf (profileStep db c).1 c (profileStep db c).2)).products = db.products := hdb1p
    rw [hp2]; exact hmiss
  obtain ⟨dbx, hdx⟩ := addItems_missing
    (newOrderOf (profileStep db c).1 c (profileStep db c).2).oid entries
    (afterOrderCreate (profileStep db c).1
      (newOrderOf (profileStep db c).1 c (profileStep db c).2)) hwf hmiss2
  have hrc := runCoreV_materialize db c entries hnf1 hbp
  rw [hdx] at hrc
  simp only at hrc
  have hfr := addItems_frame (newOrderOf (profileStep db c).1 c (profileStep db c).2).oid
    entries (afterOrderCreate (profileStep db c).1
      (newOrderOf (profileStep db c).1 c (profileStep db c).2))
  rw [hdx] at hfr
  simp only [MatOut.outDB] at hfr
  obtain ⟨f1, f2, f3, f4, extra, f5, f6⟩ := hfr
  have hres := deleteOrder_restore (profileStep db c).1
    (newOrderOf (profileStep db c).1 c (profileStep db c).2).oid dbx
    (newOrderOf (profileStep db c).1 c (profileStep db c).2) extra
    f1 rfl f5 f6
    (fun x hx => by
      show x.oid ≠ (profileStep db c).1.next_oid
      rw [hdb1n]
      exact hfresh.1 x (hdb1o ▸ hx))
    (fun li hli => by
      show li.order_id ≠ (profileStep db c).1.next_oid
      rw [hdb1n]
      exact hfresh.2 li (hdb1l ▸ hli))
  obtain ⟨r1, r2⟩ := hres
  refine ⟨deleteOrder dbx (newOrderOf (profileStep db c).1 c (profileStep db c).2).oid,
    ?_, ?_, ?_⟩
  · rw [handlePI_def, runCore_ok db i c hv, hrc]
    rfl
  · rw [r1, hdb1o]
  · rw [r2, hdb1l]

theorem validate_error_cases (i : Intent) (m : WhMsg) (h : validate i = .error m) :
    m = .noMetadata ∨ m = .missingBag ∨ m = .noChargeData ∨
    m = .noShippingDetails ∨ m = .noShippingAddress := by
  unfold validate at h
  repeat' split at h
  all_goals simp_all

theorem runCoreV_eq (db : DB) (c : Ctx) :
    runCoreV db c =
      match (pollAux (fun _ => (profileStep db c).1.orders) (fpOf c) 1 5 0).1 with
      | .multi => .multiMatch (profileStep db c).1
      | .found o _ => .matched o (profileStep db c).1
      | .notFound =>
        match c.bagParsed with
        | none => .invalidBag (profileStep db c).1
        | some entries =>
          match addItems (newOrderOf (profileStep db c).1 c (profileStep db c).2).oid
              (afterOrderCreate (profileStep db c).1
                (newOrderOf (profileStep db c).1 c (profileStep db c).2)) entries with
          | .ok db3 =>
            .created (newOrderOf (profileStep db c).1 c (profileStep db c).2) db3
          | .productMissing db3 =>
            .productNotFound
              (deleteOrder db3 (newOrderOf (profileStep db c).1 c (profileStep db c).2).oid)
          | .failed db3 =>
            .matFailed
              (deleteOrder db3 (newOrderOf (profileStep db c).1 c (profileStep db c).2).oid) :=
  rfl

theorem runCoreV_ne_rejected (db : DB) (c : Ctx) (m : WhMsg) (d : DB) :
    runCoreV db c ≠ .rejected m d := by
  intro hcon
  rw [runCoreV_eq db c] at hcon
  rcases hp : (pollAux (fun _ => (profileStep db c).1.orders) (fpOf c) 1 5 0).1
    with ⟨o2, k⟩ | _ | _ <;> rw [hp] at hcon <;> simp only at hcon
  · simp at hcon
  case notFound =>
    rcases hbp : c.bagParsed with _ | entries <;> rw [hbp] at hcon <;> simp only at hcon
    · simp at hcon
    · rcases ha : addItems (newOrderOf (profileStep db c).1 c (profileStep db c).2).oid
          (afterOrderCreate (profileStep db c).1
            (newOrderOf (profileStep db c).1 c (profileStep db c).2)) entries
        with db4 | db4 | db4 <;> rw [ha] at hcon <;> simp at hcon
  · simp at hcon

theorem runCoreV_profiles (db : DB) (c : Ctx) :
    (runCoreV db c).outDB.profiles = (profileStep db c).1.profiles := by
  have h := runCoreV_eq db c
  rcases hp : (pollAux (fun _ => (profileStep db c).1.orders) (fpOf c) 1 5 0).1
    with ⟨o2, k⟩ | _ | _ <;> rw [hp] at h <;> simp only at h
  · rw [h]; rfl
  case notFound =>
    rcases hbp : c.bagParsed with _ | entries <;> rw [hbp] at h <;> simp only at h
    · rw [h]; rfl
    · have hfr := addItems_frame
        (newOrderOf (profileStep db c).1 c (profileStep db c).2).oid entries
        (afterOrderCreate (profileStep db c).1
          (newOrderOf (profileStep db c).1 c (profileStep db c).2))
      rcases ha : addItems (newOrderOf (profileStep db c).1 c (profileStep db c).2).oid
          (afterOrderCreate (profileStep db c).1
            (newOrderOf (profileStep db c).1 c (profileStep db c).2)) entries
        with db4 | db4 | db4 <;> rw [ha] at h <;> simp only at h <;> rw [h] <;>
        rw [ha] at hfr <;> simp only [MatOut.outDB] at hfr <;> exact hfr.2.2.1
  · rw [h]; rfl

/-- C8: when a validated event finds no matching order and every cart entry
resolves, the handler creates exactly one order and, per cart entry, one
sizeless line item for a plain quantity and one line item per size/quantity
pair for a per-size mapping (the expansion `expandAll`), answering 200. -/
theorem materializer_line_items (env : Env) (db : DB) (i : Intent) (c : Ctx)
    (entries : List (String × BagEntry))
    (hv : validate i = .ok c)
    (hnf : db.orders.filter (fun x => matchesFp x (fpOf c)) = [])
    (hbp : c.bagParsed = some entries)
    (hall : ∀ e ∈ entries, db.products.contains e.1 = true ∧ e.2 ≠ BagEntry.malformed)
    (hsend : env.sendOk = true) :
    ∃ o db2, handlePI env db i = ⟨200, .createdOrder, db2, [o.email]⟩ ∧
      db2.orders = db.orders ++ [o] ∧
      db2.line_items = db.line_items ++ expandAll o.oid entries := by
  obtain ⟨sOk⟩ := env
  have hs : sOk = true := hsend
  subst hs
  have hdb1o := profileStep_orders db c
  have hdb1p := profileStep_products db c
  have hdb1l := profileStep_line_items db c
  have hnf1 : (profileStep db c).1.orders.filter (fun x => matchesFp x (fpOf c)) = [] := by
    rw [hdb1o]; exact hnf
  have hall2 : ∀ e ∈ entries,
      (afterOrderCreate (profileStep db c).1
        (newOrderOf (profileStep db c).1 c (profileStep db c).2)).products.contains e.1
        = true ∧ e.2 ≠ BagEntry.malformed := by
    intro e he
    refine ⟨?_, (hall e he).2⟩
    rw [show (afterOrderCreate (profileStep db c).1
      (newOrderOf (profileStep db c).1 c (profileStep db c).2)).products = db.products
      from hdb1p]
    exact (hall e he).1
  have hrc := runCoreV_materialize db c entries hnf1 hbp
  rw [addItems_ok_eq (newOrderOf (profileStep db c).1 c (profileStep db c).2).oid entries
    (afterOrderCreate (profileStep db c).1
      (newOrderOf (profileStep db c).1 c (profileStep db c).2)) hall2] at hrc
  simp only at hrc
  refine ⟨newOrderOf (profileStep db c).1 c (profileStep db c).2,
    { afterOrderCreate (profileStep db c).1
        (newOrderOf (profileStep db c).1 c (profileStep db c).2) with
      line_items := (afterOrderCreate (profileStep db c).1
        (newOrderOf (profileStep db c).1 c (profileStep db c).2)).line_items ++
        expandAll (newOrderOf (profileStep db c).1 c (profileStep db c).2).oid entries },
    ?_, ?_, ?_⟩
  · rw [handlePI_def, runCore_ok db i c hv, hrc]
    rfl
  · show (profileStep db c).1.orders ++ [newOrderOf (profileStep db c).1 c (profileStep db c).2]
      = db.orders ++ [newOrderOf (profileStep db c).1 c (profileStep db c).2]
    rw [hdb1o]
  · show (profileStep db c).1.line_items ++
      expandAll (newOrderOf (profileStep db c).1 c (profileStep db c).2).oid entries
      = db.line_items ++
        expandAll (newOrderOf (profileStep db c).1 c (profileStep db c).2).oid entries
    rw [hdb1l]

/-- C10: for a validated event, the user-profile table after the handler
returns is exactly what the profile-update step produced, whatever the
response status (the compensating deletion only touches orders and line
items, never reverting the profile); and when the username is not anonymous,
the save-info flag is truthy and a profile with that username exists, the
profile-update step rewrites that profile's default contact and address
fields from the event before matching or materialization runs. -/
theorem profile_update_persists (env : Env) (db : DB) (i : Intent) (c : Ctx)
    (hv : validate i = .ok c) :
    (handlePI env db i).db.profiles = (profileStep db c).1.profiles ∧
    (c.username ≠ "AnonymousUser" → truthyS c.save_info = true →
      (∃ p ∈ db.profiles, (p.username == c.username) = true) →
      (profileStep db c).1.profiles =
        db.profiles.map
          (fun p => if p.username == c.username then updatedProfile p c else p)) := by
  constructor
  · rw [handlePI_def, runCore_ok db i c hv, respond_db]
    exact runCoreV_profiles db c
  · intro hu hsi hex
    unfold profileStep
    rw [if_neg (by simp [hu])]
    rcases hfind : db.profiles.find? (fun p => p.username == c.username) with _ | p
    · exfalso
      rw [List.find?_eq_none] at hfind
      obtain ⟨p, hp, hpe⟩ := hex
      exact absurd hpe (by simpa using hfind p hp)
    · rw [hfind]
      simp only
      rw [if_pos hsi]

/-- C9: a run that ends with a matched existing order or a freshly
materialized order sends exactly one confirmation, addressed to that order's
billing email, and the order is in the final database; when sending raises
instead, the handler answers 500 but leaves the very same database — the
order is not deleted or rolled back. -/
theorem confirmation_once_no_rollback (db : DB) (i : Intent) (st : ℕ) (m : WhMsg)
    (db2 : DB) (ems : List (Option String))
    (h : handlePI ⟨true⟩ db i = ⟨st, m, db2, ems⟩)
    (hm : m = .verifiedExisting ∨ m = .createdOrder) :
    ∃ o, o ∈ db2.orders ∧ ems = [o.email] ∧
      handlePI ⟨false⟩ db i = ⟨500, .unexpectedError, db2, []⟩ := by
  rw [handlePI_def] at h
  rw [handlePI_def]
  rcases hv : validate i with mv | c
  · rw [runCore_error db i mv hv] at h
    simp [respond] at h
    rcases validate_error_cases i mv hv with rfl | rfl | rfl | rfl | rfl <;>
      rcases hm with rfl | rfl <;> simp_all
  · rw [runCore_ok db i c hv] at h
    rw [runCore_ok db i c hv]
    rcases hro : runCoreV db c with ⟨mm, d⟩ | d | ⟨o, d⟩ | d | ⟨o, d⟩ | d | d <;>
      rw [hro] at h
    · exact absurd hro (runCoreV_ne_rejected db c mm d)
    · simp [respond] at h
      rcases hm with rfl | rfl <;> simp_all
    · simp [respond] at h
      obtain ⟨hst, hmm, hd, hems⟩ := h
      obtain ⟨hd1, hmem, hfp⟩ := runCoreV_matched_inv db c o d hro
      refine ⟨o, ?_, hems.symm, ?_⟩
      · rw [← hd, hd1]
        exact hmem
      · rw [← hd]
        rfl
    · simp [respond] at h
      rcases hm with rfl | rfl <;> simp_all
    · simp [respond] at h
      obtain ⟨hst, hmm, hd, hems⟩ := h
      obtain ⟨entries, hnfv, hbpv, hov, hav⟩ := runCoreV_created_inv db c o d hro
      have hfr := addItems_frame o.oid entries
        (afterOrderCreate (profileStep db c).1 o)
      rw [hav] at hfr
      simp only [MatOut.outDB] at hfr
      have hmem : o ∈ d.orders := by
        rw [hfr.1]
        show o ∈ (profileStep db c).1.orders ++ [o]
        simp
      refine ⟨o, ?_, hems.symm, ?_⟩
      · rw [← hd]
        exact hmem
      · rw [← hd]
        rfl
    · simp [respond] at h
      rcases hm with rfl | rfl <;> simp_all
    · simp [respond] at h
      rcases hm with rfl | rfl <;> simp_all

/-- C1: if a delivery of an event materializes an order (success response
after order creation), redelivering the same event to the resulting database
does not create a second order: the poller query finds the order the first
delivery created, the handler answers success for a verified existing order,
and the order rows are unchanged. -/
theorem idempotent_redelivery (env : Env) (db0 : DB) (i : Intent) (db1 : DB)
    (ems1 : List (Option String))
    (h : handlePI env db0 i = ⟨200, .createdOrder, db1, ems1⟩) :
    ∃ o db2, db1.orders = db0.orders ++ [o] ∧
      handlePI env db1 i = ⟨200, .verifiedExisting, db2, [o.email]⟩ ∧
      db2.orders = db1.orders := by
  rw [handlePI_def] at h
  rcases hv : validate i with mv | c
  · rw [runCore_error db0 i mv hv] at h
    simp [respond] at h
  · rw [runCore_ok db0 i c hv] at h
    rcases hro : runCoreV db0 c with ⟨mm, d⟩ | d | ⟨o, d⟩ | d | ⟨o, d⟩ | d | d <;>
      rw [hro] at h
    · exact absurd hro (runCoreV_ne_rejected db0 c mm d)
    · simp [respond] at h
    · rcases hsd : env.sendOk <;> simp [respond, hsd] at h
    · simp [respond] at h
    · rcases hsd : env.sendOk <;> simp [respond, hsd] at h
      obtain ⟨hd, hems⟩ := h
      subst hd
      obtain ⟨entries, hnfv, hbpv, hov, hav⟩ := runCoreV_created_inv db0 c o d hro
      have hfr := addItems_frame o.oid entries
        (afterOrderCreate (profileStep db0 c).1 o)
      rw [hav] at hfr
      simp only [MatOut.outDB] at hfr
      have hd_orders : d.orders = db0.orders ++ [o] := by
        rw [hfr.1]
        show (profileStep db0 c).1.orders ++ [o] = db0.orders ++ [o]
        rw [profileStep_orders]
      have hmatch : matchesFp o (fpOf c) = true := by
        rw [hov]
        exact matchesFp_newOrder _ _ _
      have h0 : db0.orders.filter (fun x => matchesFp x (fpOf c)) = [] := by
        have := hnfv
        rwa [profileStep_orders] at this
      have hfilter : (profileStep d c).1.orders.filter (fun x => matchesFp x (fpOf c))
          = [o] := by
        rw [profileStep_orders, hd_orders, List.filter_append, h0]
        simp [hmatch]
      have hrc2 := runCoreV_found d c o hfilter
      refine ⟨o, (profileStep d c).1, hd_orders, ?_, profileStep_orders d c⟩
      · rw [handlePI_def, runCore_ok d i c hv, hrc2]
        simp [respond, hsd]
    · simp [respond] at h
    · simp [respond] at h

/-- Witness for the idempotence theorem: scenario A delivered twice against an
empty store. -/
theorem idempotent_redelivery_witness :
    ∃ o db2, wDB1.orders = wDB0.orders ++ [o] ∧
      handlePI ⟨true⟩ wDB1 wIntentA = ⟨200, .verifiedExisting, db2, [o.email]⟩ ∧
      db2.orders = wDB1.orders :=
  idempotent_redelivery ⟨true⟩ wDB0 wIntentA wDB1 [some "jane@example.com"] rfl

/-- Witness for the rollback theorem: scenario E, a cart naming the unknown
product 999. -/
theorem rollback_on_missing_product_witness :
    ∃ db2, handlePI ⟨true⟩ wDB0 wIntentE = ⟨400, .productNotFound, db2, []⟩ ∧
      db2.orders = wDB0.orders ∧ db2.line_items = wDB0.line_items :=
  rollback_on_missing_product ⟨true⟩ wDB0 wIntentE wCtxE [("999", BagEntry.qty 1)]
    rfl rfl rfl (by decide) (by decide) ⟨by simp [wDB0], by simp [wDB0]⟩

/-- Witness for the materializer theorem: scenario A creates one order and one
sizeless line item of quantity 3. -/
theorem materializer_line_items_witness :
    ∃ o db2, handlePI ⟨true⟩ wDB0 wIntentA = ⟨200, .createdOrder, db2, [o.email]⟩ ∧
      db2.orders = wDB0.orders ++ [o] ∧
      db2.line_items = wDB0.line_items ++ expandAll o.oid [("12", BagEntry.qty 3)] :=
  materializer_line_items ⟨true⟩ wDB0 wIntentA wCtxA [("12", BagEntry.qty 3)]
    rfl rfl rfl (by decide) rfl

/-- Witness for the confirmation theorem: scenario A sends one confirmation,
and a failing sender leaves the same database. -/
theorem confirmation_once_witness :
    ∃ o, o ∈ wDB1.orders ∧ [some "jane@example.com"] = [o.email] ∧
      handlePI ⟨false⟩ wDB0 wIntentA = ⟨500, .unexpectedError, wDB1, []⟩ :=
  confirmation_once_no_rollback wDB0 wIntentA 200 .createdOrder wDB1
    [some "jane@example.com"] rfl (Or.inr rfl)

/-- Witness for the profile-update theorem: user kirby with the save-info flag
set has the stored profile rewritten, and the handler call preserves it. -/
theorem profile_update_witness :
    (handlePI ⟨true⟩ wDBP wIntentP).db.profiles = (profileStep wDBP wCtxP).1.profiles ∧
    (profileStep wDBP wCtxP).1.profiles =
      wDBP.profiles.map
        (fun p => if p.username == wCtxP.username then updatedProfile p wCtxP else p) := by
  have h := profile_update_persists ⟨true⟩ wDBP wIntentP wCtxP rfl
  exact ⟨h.1, h.2 (by decide) rfl ⟨wProfile, by decide, by decide⟩⟩

end BoutiqueWH
